import Mathlib

/-!
Pageview counter: the `/track` ingest handler and the `/live` count stream.

A shallow embedding of `main.go`.  The two HTTP handlers are translated
statement by statement.  The collaborators they call (`database/sql` on an
SQLite file, `net/http`, `fmt`) are modelled by small executable functions
whose failures are inputs: every call that can return a Go `error` reads its
outcome from an environment record, `none` standing for `nil`.

The table `pageviews` is a list of rows in insertion order.  Only committed
rows are in it; the rows written inside a transaction wait in the
transaction handle until `Commit`.
-/

namespace LiveCounter

/-! ## The table `pageviews` -/

/-- One row of `pageviews (id INTEGER PRIMARY KEY, page TEXT, timestamp DATETIME)`. -/
structure Row where
  id : Nat
  page : String
  timestamp : Nat
deriving DecidableEq, Repr

/-- The database file as the handlers see it: the committed rows, oldest first. -/
structure DB where
  rows : List Row
deriving DecidableEq, Repr

/-- The table right after `CREATE TABLE IF NOT EXISTS pageviews` on a new file. -/
def freshStore : DB := { rows := [] }

/-- Largest rowid SQLite can assign, `2^63 - 1`. -/
def maxRowid : Nat := 9223372036854775807

/-- Largest `id` in use, `0` for an empty table. -/
def largestRowid (rows : List Row) : Nat :=
  rows.foldl (fun m r => max m r.id) 0

/-- The id SQLite gives to a row inserted without an explicit `id` into a table
whose `id` column is `INTEGER PRIMARY KEY` (an alias of the rowid): one more
than the largest id in use; when the largest id is already `maxRowid`, the
positive unused candidate `cand` found by its random search, and no id at all
(`SQLITE_FULL`) when that search finds none. -/
def newRowid (rows : List Row) (cand : Option Nat) : Option Nat :=
  if largestRowid rows < maxRowid then some (largestRowid rows + 1)
  else
    match cand with
    | some c =>
      if 0 < c ∧ c ≤ maxRowid ∧ c ∉ rows.map Row.id then some c else none
    | none => none

/-! ## The package `database/sql` -/

/-- The calls the handlers make on the shared handle `db` and on a transaction. -/
inductive DbCall
  | begin
  | exec (sql : String) (arg : String)
  | queryRow (sql : String)
  | commit
  | rollback
deriving DecidableEq, Repr

/-- A transaction handle `*sql.Tx`: the rows it has written that are not yet
committed, and whether `Commit` or `Rollback` has already been called on it. -/
structure Tx where
  pending : List Row
  done : Bool
deriving DecidableEq, Repr

/-- The text of `sql.ErrTxDone`. -/
def ErrTxDone : String := "sql: transaction has already been committed or rolled back"

/-- The text of SQLite's `SQLITE_FULL`. -/
def errFull : String := "database or disk is full"

/-- Model of `db.Begin()`: a fresh handle, or the error of the environment. -/
def Begin (err : Option String) : Except String Tx :=
  match err with
  | some e => .error e
  | none => .ok { pending := [], done := false }

/-- Model of `tx.Exec("INSERT INTO pageviews (page) VALUES (?)", page)`: the row gets a new
id and the current time as its timestamp, and waits in the handle. -/
def Tx.Exec (db : DB) (tx : Tx) (page : String) (err : Option String)
    (cand : Option Nat) (now : Nat) : Except String Tx :=
  if tx.done then .error ErrTxDone
  else
    match err with
    | some e => .error e
    | none =>
      match newRowid (db.rows ++ tx.pending) cand with
      | none => .error errFull
      | some i =>
        .ok { tx with pending := tx.pending ++ [{ id := i, page := page, timestamp := now }] }

/-- Model of `tx.Commit()`: on success the waiting rows become visible; on failure none
does, and they stay waiting.  Either way the handle is marked as finished. -/
def Tx.Commit (db : DB) (tx : Tx) (err : Option String) : DB × Tx × Option String :=
  if tx.done then (db, tx, some ErrTxDone)
  else
    match err with
    | some e => (db, { tx with done := true }, some e)
    | none => ({ rows := db.rows ++ tx.pending }, { pending := [], done := true }, none)

/-- Model of `tx.Rollback()`: drops the waiting rows; on a finished handle it only
returns `ErrTxDone`. -/
def Tx.Rollback (db : DB) (tx : Tx) : DB × Tx × Option String :=
  if tx.done then (db, tx, some ErrTxDone)
  else (db, { pending := [], done := true }, none)

/-- Model of `tx.QueryRow("SELECT COUNT(*) FROM pageviews").Scan(&count)`: the number of
rows the transaction sees, or the error of the environment, in which case
`count` keeps its zero value. -/
def Tx.QueryRowScan (db : DB) (tx : Tx) (err : Option String) : Nat × Option String :=
  match err with
  | some e => (0, some e)
  | none => ((db.rows ++ tx.pending).length, none)

/-! ## The package `net/http` -/

/-- The type `url.Values`, the parsed query string: the values given for each key, in
order of appearance. -/
abbrev Values := String → List String

/-- The method `Values.Get`: the first value of the key, `""` when there is none. -/
def Values.Get (v : Values) (key : String) : String :=
  match v key with
  | [] => ""
  | x :: _ => x

/-- The part of `*http.Request` the handlers read. -/
structure Request where
  Method : String
  Query : Values

/-- A finished response. -/
structure Response where
  status : Nat
  header : List (String × String)
  body : String
deriving DecidableEq, Repr

def StatusNoContent : Nat := 204
def StatusBadRequest : Nat := 400
def StatusMethodNotAllowed : Nat := 405
def StatusInternalServerError : Nat := 500

/-- Model of `http.Error(w, msg, code)`: plain-text headers, the status, then the message
and a newline. -/
def Error (msg : String) (code : Nat) : Response :=
  { status := code,
    header := [("Content-Type", "text/plain; charset=utf-8"),
               ("X-Content-Type-Options", "nosniff")],
    body := msg ++ "\n" }

/-- Model of `w.WriteHeader(code)` with nothing written after it. -/
def WriteHeader (code : Nat) : Response :=
  { status := code, header := [], body := "" }

/-! ## The package `fmt` -/

/-- The digit loop of `fmt` for a non-negative integer in base 10: digits are
produced from the least significant one and stored right to left. -/
def fmtInteger (u : Nat) (acc : List Char) : List Char :=
  if 10 ≤ u then fmtInteger (u / 10) (Char.ofNat (48 + (u - u / 10 * 10)) :: acc)
  else Char.ofNat (48 + u) :: acc
termination_by u
decreasing_by omega

/-- The verb `%d` applied to a Go `int`. -/
def fmtD (a : Int) : List Char :=
  if a < 0 then '-' :: fmtInteger (-a).toNat [] else fmtInteger a.toNat []

/-- The format loop of `fmt`, for what the format string of the `/live` handler
uses: plain text, which is copied, and the verb `%d` with an integer operand at
hand, which takes that operand. -/
def doPrintf : List Char → List Int → List Char
  | [], _ => []
  | '%' :: 'd' :: rest, a :: args => fmtD a ++ doPrintf rest args
  | c :: rest, args => c :: doPrintf rest args

/-- Model of `fmt.Sprintf(format, args...)`, the text that
`fmt.Fprintf(w, format, args...)` hands to `w`. -/
def Sprintf (format : String) (args : List Int) : String :=
  String.mk (doPrintf format.toList args)

/-! ## The `/track` handler -/

/-- What the store and the clock do during one `/track` request. -/
structure TrackEnv where
  beginErr : Option String
  execErr : Option String
  cand : Option Nat
  now : Nat
  commitErr : Option String

/-- What one `/track` request leaves behind: the response, the table, the calls
made on the database in order, and the transaction handle if one was opened. -/
structure TrackResult where
  resp : Response
  db : DB
  calls : List DbCall
  tx : Option Tx
deriving DecidableEq, Repr

def insertSQL : String := "INSERT INTO pageviews (page) VALUES (?)"

/-- The handler registered for `/track`.  The deferred `tx.Rollback()` runs on
every return that follows a successful `Begin`. -/
def trackHandler (db : DB) (r : Request) (env : TrackEnv) : TrackResult :=
  if r.Method ≠ "POST" then
    { resp := Error "Method not allowed" StatusMethodNotAllowed,
      db := db, calls := [], tx := none }
  else
    let page := r.Query.Get "page"
    if page = "" then
      { resp := Error "Missing page parameter" StatusBadRequest,
        db := db, calls := [], tx := none }
    else
      match Begin env.beginErr with
      | .error e =>
        { resp := Error e StatusInternalServerError,
          db := db, calls := [.begin], tx := none }
      | .ok tx =>
        match tx.Exec db page env.execErr env.cand env.now with
        | .error e =>
          let (db1, tx1, _) := tx.Rollback db
          { resp := Error e StatusInternalServerError,
            db := db1, calls := [.begin, .exec insertSQL page, .rollback], tx := some tx1 }
        | .ok tx1 =>
          match tx1.Commit db env.commitErr with
          | (db2, tx2, some e) =>
            let (db3, tx3, _) := tx2.Rollback db2
            { resp := Error e StatusInternalServerError,
              db := db3, calls := [.begin, .exec insertSQL page, .commit, .rollback],
              tx := some tx3 }
          | (db2, tx2, none) =>
            let (db3, tx3, _) := tx2.Rollback db2
            { resp := WriteHeader StatusNoContent,
              db := db3, calls := [.begin, .exec insertSQL page, .commit, .rollback],
              tx := some tx3 }

/-! ## The `/live` handler -/

/-- What the store and the client connection do during one pass of the loop. -/
structure LiveEnv where
  beginErr : Option String
  queryErr : Option String
  commitErr : Option String
  writeErr : Option String

/-- What the `/live` handler does, in order. -/
inductive Event
  | db (c : DbCall)
  | scan (count : Nat)
  | log (msg : String)
  | write (frame : String) (err : Option String)
  | flush
  | sleep (seconds : Nat)
deriving DecidableEq, Repr

/-- One pass of the loop body: the table after it, what was done, and whether
the loop goes round again (`false`: the handler has returned). -/
structure Iteration where
  db : DB
  events : List Event
  continues : Bool
deriving DecidableEq, Repr

def countSQL : String := "SELECT COUNT(*) FROM pageviews"

/-- The headers the `/live` handler sets before its loop. -/
def liveHeader : List (String × String) :=
  [("Content-Type", "text/event-stream"), ("Cache-Control", "no-cache"),
   ("Connection", "keep-alive")]

/-- The body of the `for` loop of the `/live` handler.  The results of
`tx.Commit()` and of `fmt.Fprintf` are dropped, as in the source; the outcome
of the write is kept in the event only. -/
def liveIteration (db : DB) (env : LiveEnv) : Iteration :=
  match Begin env.beginErr with
  | .error e =>
    { db := db, events := [.db .begin, .log ("Transaction error: " ++ e)],
      continues := false }
  | .ok tx =>
    let (count, err) := tx.QueryRowScan db env.queryErr
    let (db1, _, _) := tx.Commit db env.commitErr
    match err with
    | some e =>
      { db := db1,
        events := [.db .begin, .db (.queryRow countSQL), .db .commit,
                   .log ("Query error: " ++ e)],
        continues := false }
    | none =>
      { db := db1,
        events := [.db .begin, .db (.queryRow countSQL), .scan count, .db .commit,
                   .write (Sprintf "data: %d\n\n" [(count : Int)]) env.writeErr,
                   .flush, .sleep 2],
        continues := true }

/-! ## Requests arriving while one `/live` connection is open -/

/-- What happens next: a whole `/track` request is served, or the `/live`
connection makes one pass of its loop. -/
inductive Action
  | track (r : Request) (env : TrackEnv)
  | tick (env : LiveEnv)

/-- The table, whether the `/live` handler is still in its loop, and what it has
done so far. -/
structure Sys where
  db : DB
  live : Bool
  trace : List Event
deriving DecidableEq, Repr

/-- A `/live` connection just opened on the table `db`. -/
def Sys.connect (db : DB) : Sys := { db := db, live := true, trace := [] }

def step (s : Sys) : Action → Sys
  | .track r env => { s with db := (trackHandler s.db r env).db }
  | .tick env =>
    if s.live then
      let it := liveIteration s.db env
      { db := it.db, live := it.continues, trace := s.trace ++ it.events }
    else s

def run (s : Sys) (as : List Action) : Sys := as.foldl step s

/-- The frames handed to `fmt.Fprintf`, in order. -/
def frames : List Event → List String
  | [] => []
  | .write f _ :: es => f :: frames es
  | _ :: es => frames es

/-- The counts obtained by `Scan`, in order. -/
def countsRead : List Event → List Nat
  | [] => []
  | .scan n :: es => n :: countsRead es
  | _ :: es => countsRead es

/-- The calls made on the database, in order. -/
def dbCalls : List Event → List DbCall
  | [] => []
  | .db c :: es => c :: dbCalls es
  | _ :: es => dbCalls es

/-- The table after a sequence of `/track` requests. -/
def serve (db : DB) (reqs : List (Request × TrackEnv)) : DB :=
  reqs.foldl (fun d q => (trackHandler d q.1 q.2).db) db

/-- The decimal representation of a number: its base-10 digits, the most
significant first, and the single digit `0` for zero. -/
def decimal (n : Nat) : String :=
  if n = 0 then "0" else String.mk ((Nat.digits 10 n).reverse.map Nat.digitChar)

/-- The frame for a count, as the stream format prescribes it: `data: `, the
decimal representation of the count, two newlines. -/
def frameOf (n : Nat) : String :=
  "data: " ++ decimal n ++ "\n\n"

/-! ## Sample inputs -/

def postPage (p : String) : Request :=
  { Method := "POST", Query := fun k => if k = "page" then [p] else [] }

def getPage (p : String) : Request :=
  { Method := "GET", Query := fun k => if k = "page" then [p] else [] }

def postNoPage : Request := { Method := "POST", Query := fun _ => [] }

def okTrack : TrackEnv :=
  { beginErr := none, execErr := none, cand := none, now := 1700000000, commitErr := none }

def okLive : LiveEnv :=
  { beginErr := none, queryErr := none, commitErr := none, writeErr := none }

def oneRow : DB := { rows := [{ id := 1, page := "/a", timestamp := 1699999999 }] }

def brokenPipe : LiveEnv := { okLive with writeErr := some "write: broken pipe" }

def failLiveBegin : LiveEnv := { okLive with beginErr := some "database is locked" }

def failLiveQuery : LiveEnv := { okLive with queryErr := some "disk I/O error" }

def failLiveCommit : LiveEnv := { okLive with commitErr := some "disk I/O error" }

def failBegin : TrackEnv := { okTrack with beginErr := some "database is locked" }

def failExec : TrackEnv := { okTrack with execErr := some "disk I/O error" }

def failCommit : TrackEnv := { okTrack with commitErr := some "database is locked" }

/-- One `/live` connection on a new table: a pass of the loop, then an insert, a
request with a wrong method and an insert whose commit fails, a pass whose
write fails, another insert, and a pass whose commit fails. -/
def sampleSchedule : List Action :=
  [.tick okLive, .track (postPage "/a") okTrack, .track (getPage "/b") okTrack,
   .track (postPage "/c") failCommit, .tick brokenPipe, .track (postPage "/d") okTrack,
   .tick failLiveCommit]

/-- Requests of every kind: two that insert, one with a wrong method, one with an
empty page, one whose insert fails and one whose commit fails. -/
def sampleRequests : List (Request × TrackEnv) :=
  [(postPage "/a", okTrack), (getPage "/b", okTrack), (postPage "", okTrack),
   (postPage "/c", failExec), (postPage "/d", failCommit), (postPage "/e", okTrack)]

/-! ## The `/track` handler: responses and effect on the table -/

/-- C1: a POST to `/track` whose first `page` value is the non-empty string `p`,
and whose `Begin`, insert and `Commit` all succeed, is answered `204` with an
empty body, and the table afterwards is the table before followed by exactly
one new row, whose page is `p`: the count has grown by exactly one and every
earlier row is as it was. -/
theorem track_post_adds_one_row (db : DB) (r : Request) (env : TrackEnv) (p : String)
    (i : Nat) (hm : r.Method = "POST") (hq : r.Query.Get "page" = p) (hp : p ≠ "")
    (hb : env.beginErr = none) (hx : env.execErr = none)
    (hi : newRowid db.rows env.cand = some i) (hc : env.commitErr = none) :
    (trackHandler db r env).resp.status = 204
    ∧ (trackHandler db r env).resp.body = ""
    ∧ (trackHandler db r env).db.rows
        = db.rows ++ [{ id := i, page := p, timestamp := env.now }]
    ∧ (trackHandler db r env).db.rows.length = db.rows.length + 1 := by
  subst hq
  simp [trackHandler, hm, hp, hb, hx, hc, hi, Begin, Tx.Exec, Tx.Commit, Tx.Rollback,
    WriteHeader, StatusNoContent]

/-- An instance of C1: a POST of `/b` on a table of one row adds the row with id 2. -/
theorem track_post_adds_one_row_witness :
    (trackHandler oneRow (postPage "/b") okTrack).resp.status = 204
    ∧ (trackHandler oneRow (postPage "/b") okTrack).resp.body = ""
    ∧ (trackHandler oneRow (postPage "/b") okTrack).db.rows
        = oneRow.rows ++ [{ id := 2, page := "/b", timestamp := okTrack.now }]
    ∧ (trackHandler oneRow (postPage "/b") okTrack).db.rows.length
        = oneRow.rows.length + 1 :=
  track_post_adds_one_row oneRow (postPage "/b") okTrack "/b" 2
    (by decide) (by decide) (by decide) (by decide) (by decide) (by decide) (by decide)

/-- C2: a POST to `/track` whose `page` parameter is absent, or whose first
`page` value is the empty string, is answered `400`; the handler makes no call
on the database, so no transaction is begun, and the table is left as it was. -/
theorem track_missing_page_rejected (db : DB) (r : Request) (env : TrackEnv)
    (hm : r.Method = "POST")
    (hq : r.Query "page" = [] ∨ ∃ vs, r.Query "page" = "" :: vs) :
    (trackHandler db r env).resp.status = 400
    ∧ (trackHandler db r env).calls = []
    ∧ (trackHandler db r env).tx = none
    ∧ (trackHandler db r env).db = db := by
  have hg : r.Query.Get "page" = "" := by
    rcases hq with h | ⟨vs, h⟩ <;> simp [Values.Get, h]
  simp [trackHandler, hm, hg, Error, StatusBadRequest]

/-- Instances of C2: a POST without `page`, and a POST with `page=`. -/
theorem track_missing_page_rejected_witness :
    ((trackHandler oneRow postNoPage okTrack).resp.status = 400
      ∧ (trackHandler oneRow postNoPage okTrack).calls = []
      ∧ (trackHandler oneRow postNoPage okTrack).tx = none
      ∧ (trackHandler oneRow postNoPage okTrack).db = oneRow)
    ∧ ((trackHandler oneRow (postPage "") okTrack).resp.status = 400
      ∧ (trackHandler oneRow (postPage "") okTrack).calls = []
      ∧ (trackHandler oneRow (postPage "") okTrack).tx = none
      ∧ (trackHandler oneRow (postPage "") okTrack).db = oneRow) :=
  ⟨track_missing_page_rejected oneRow postNoPage okTrack (by decide) (Or.inl (by decide)),
   track_missing_page_rejected oneRow (postPage "") okTrack (by decide)
    (Or.inr ⟨[], by decide⟩)⟩

/-- C3: a request to `/track` whose method is not `POST` is answered `405`
whatever its query holds; the handler makes no call on the database, so no
transaction is begun, and the table is left as it was. -/
theorem track_wrong_method_rejected (db : DB) (r : Request) (env : TrackEnv)
    (hm : r.Method ≠ "POST") :
    (trackHandler db r env).resp.status = 405
    ∧ (trackHandler db r env).calls = []
    ∧ (trackHandler db r env).tx = none
    ∧ (trackHandler db r env).db = db := by
  simp [trackHandler, hm, Error, StatusMethodNotAllowed]

/-- Instances of C3: a GET with a page, and a GET with an empty page. -/
theorem track_wrong_method_rejected_witness :
    ((trackHandler oneRow (getPage "/b") okTrack).resp.status = 405
      ∧ (trackHandler oneRow (getPage "/b") okTrack).calls = []
      ∧ (trackHandler oneRow (getPage "/b") okTrack).tx = none
      ∧ (trackHandler oneRow (getPage "/b") okTrack).db = oneRow)
    ∧ ((trackHandler oneRow (getPage "") okTrack).resp.status = 405
      ∧ (trackHandler oneRow (getPage "") okTrack).calls = []
      ∧ (trackHandler oneRow (getPage "") okTrack).tx = none
      ∧ (trackHandler oneRow (getPage "") okTrack).db = oneRow) :=
  ⟨track_wrong_method_rejected oneRow (getPage "/b") okTrack (by decide),
   track_wrong_method_rejected oneRow (getPage "") okTrack (by decide)⟩

/-- At every store failure of a POST with a non-empty page, be it at `Begin`, at
the insert or at `Commit`, with the error `e`: the response is `500` with body
`e` followed by a newline, and the table is exactly what it was before the
request. -/
theorem trackHandler_store_failure (db : DB) (r : Request) (env : TrackEnv) (e : String)
    (hm : r.Method = "POST") (hp : r.Query.Get "page" ≠ "")
    (hf : Begin env.beginErr = .error e
      ∨ (∃ tx, Begin env.beginErr = .ok tx
          ∧ tx.Exec db (r.Query.Get "page") env.execErr env.cand env.now = .error e)
      ∨ (∃ tx tx1, Begin env.beginErr = .ok tx
          ∧ tx.Exec db (r.Query.Get "page") env.execErr env.cand env.now = .ok tx1
          ∧ (tx1.Commit db env.commitErr).2.2 = some e)) :
    (trackHandler db r env).resp.status = 500
    ∧ (trackHandler db r env).resp.body = e ++ "\n"
    ∧ (trackHandler db r env).db = db := by
  rcases hf with h | ⟨tx, hb, h⟩ | ⟨tx, tx1, hb, hx, h⟩
  · simp [trackHandler, hm, hp, h, Error, StatusInternalServerError]
  · simp [trackHandler, hm, hp, hb, h, Error, StatusInternalServerError, Tx.Rollback]
    split <;> simp_all
  · have hd : tx1.done = false := by
      cases hbe : env.beginErr <;> simp [Begin, hbe] at hb
      subst hb
      simp only [Tx.Exec] at hx
      split at hx
      · simp at hx
      · split at hx
        · simp at hx
        · split at hx
          · simp at hx
          · simp at hx
            rw [← hx]
    have hc : env.commitErr = some e := by
      cases hce : env.commitErr <;> simp [Tx.Commit, hd, hce] at h
      rw [h]
    simp [trackHandler, hm, hp, hb, hx, hc, hd, Error, StatusInternalServerError,
      Tx.Rollback, Tx.Commit]

/-- When `Begin` fails, no transaction exists and the handler makes no further
call: there is nothing to roll back. -/
theorem trackHandler_failed_begin (db : DB) (r : Request) (env : TrackEnv) (e : String)
    (hm : r.Method = "POST") (hp : r.Query.Get "page" ≠ "")
    (hb : env.beginErr = some e) :
    (trackHandler db r env).tx = none
    ∧ (trackHandler db r env).calls = [.begin] := by
  simp [trackHandler, hm, hp, hb, Begin]

/-- When the insert fails, the deferred `Rollback` finds the handle open and ends
it: it returns no error, and the handler leaves a finished handle in which
nothing waits. -/
theorem trackHandler_failed_exec (db : DB) (r : Request) (env : TrackEnv) (e : String)
    (hm : r.Method = "POST") (hp : r.Query.Get "page" ≠ "")
    (hb : env.beginErr = none)
    (hx : Tx.Exec db { pending := [], done := false } (r.Query.Get "page") env.execErr
            env.cand env.now = .error e) :
    (trackHandler db r env).tx = some { pending := [], done := true }
    ∧ Tx.Rollback db { pending := [], done := false }
        = (db, { pending := [], done := true }, none) := by
  simp [trackHandler, hm, hp, hb, hx, Begin, Tx.Rollback]

/-- When `Commit` fails, it has already marked the handle as finished, so the
deferred `Rollback` returns `ErrTxDone` and drops nothing: the handler leaves a
handle in which the inserted row still waits. -/
theorem trackHandler_failed_commit (db : DB) (r : Request) (env : TrackEnv) (e : String)
    (i : Nat) (hm : r.Method = "POST") (hp : r.Query.Get "page" ≠ "")
    (hb : env.beginErr = none) (hx : env.execErr = none)
    (hi : newRowid db.rows env.cand = some i) (hc : env.commitErr = some e) :
    (trackHandler db r env).tx
      = some { pending := [{ id := i, page := r.Query.Get "page", timestamp := env.now }],
               done := true }
    ∧ Tx.Rollback db
        { pending := [{ id := i, page := r.Query.Get "page", timestamp := env.now }],
          done := true }
      = (db, { pending := [{ id := i, page := r.Query.Get "page", timestamp := env.now }],
               done := true }, some ErrTxDone) := by
  simp [trackHandler, hm, hp, hb, hx, hi, hc, Begin, Tx.Exec, Tx.Commit, Tx.Rollback]

/-- C4, at the failing input: a POST of `/b` on a table of one row, where `Begin`
and the insert succeed and `Commit` fails with `database is locked`.  The
response is `500` with that text and the table is what it was, but the
transaction is not rolled back.  The failed `Commit` leaves the handle marked
as finished with the inserted row still waiting in it; the deferred `Rollback`,
the last call of the handler, is made on that handle, returns `ErrTxDone` and
drops nothing; and the handler returns with the row still waiting.  On the
same request with a failing insert, the deferred `Rollback` does end the
transaction. -/
theorem track_failed_commit_not_rolled_back :
    (trackHandler oneRow (postPage "/b") failCommit).resp.status = 500
    ∧ (trackHandler oneRow (postPage "/b") failCommit).resp.body = "database is locked\n"
    ∧ (trackHandler oneRow (postPage "/b") failCommit).db = oneRow
    ∧ (trackHandler oneRow (postPage "/b") failCommit).calls
        = [.begin, .exec insertSQL "/b", .commit, .rollback]
    ∧ Tx.Commit oneRow
        { pending := [{ id := 2, page := "/b", timestamp := 1700000000 }], done := false }
        failCommit.commitErr
      = (oneRow,
         { pending := [{ id := 2, page := "/b", timestamp := 1700000000 }], done := true },
         some "database is locked")
    ∧ Tx.Rollback oneRow
        { pending := [{ id := 2, page := "/b", timestamp := 1700000000 }], done := true }
      = (oneRow,
         { pending := [{ id := 2, page := "/b", timestamp := 1700000000 }], done := true },
         some ErrTxDone)
    ∧ (trackHandler oneRow (postPage "/b") failCommit).tx
        = some { pending := [{ id := 2, page := "/b", timestamp := 1700000000 }],
                 done := true }
    ∧ (trackHandler oneRow (postPage "/b") failExec).tx
        = some { pending := [], done := true } := by
  decide

/-! ## The frame text -/

theorem ofNat_digit (d : Nat) (h : d < 10) : Char.ofNat (48 + d) = Nat.digitChar d := by
  interval_cases d <;> rfl

theorem fmtInteger_digits (n : Nat) :
    ∀ acc, 0 < n → fmtInteger n acc = (Nat.digits 10 n).reverse.map Nat.digitChar ++ acc := by
  induction n using Nat.strong_induction_on with
  | _ n ih =>
    intro acc hn
    rw [fmtInteger]
    have hdig : Nat.digits 10 n = n % 10 :: Nat.digits 10 (n / 10) :=
      Nat.digits_def' (by norm_num) hn
    have hmod : n - n / 10 * 10 = n % 10 := by omega
    split
    · rename_i h10
      rw [ih (n / 10) (by omega) _ (by omega), hdig, hmod,
        ofNat_digit _ (Nat.mod_lt _ (by norm_num))]
      simp
    · rename_i h10
      have hlt : n < 10 := by omega
      have hdiv : n / 10 = 0 := by omega
      have hm : n % 10 = n := by omega
      rw [hdig, hdiv, hm, ofNat_digit _ hlt]
      simp

/-- The text written by the handler for a count is the frame of that count. -/
theorem Sprintf_count (n : Nat) : Sprintf "data: %d\n\n" [(n : Int)] = frameOf n := by
  have hfmt : fmtD (n : Int) = (decimal n).toList := by
    have hneg : ¬ ((n : Int) < 0) := by omega
    simp only [fmtD, hneg, if_false, Int.toNat_ofNat, decimal]
    rcases Nat.eq_zero_or_pos n with h0 | hpos
    · subst h0
      rw [fmtInteger]
      simp
    · rw [fmtInteger_digits n [] hpos, if_neg (by omega)]
      simp
  apply String.ext
  simp [Sprintf, doPrintf, frameOf, hfmt]

theorem digitChar_inj (a b : Nat) (ha : a < 10) (hb : b < 10)
    (h : Nat.digitChar a = Nat.digitChar b) : a = b := by
  interval_cases a <;> interval_cases b <;> first | rfl | (exact absurd h (by decide))

theorem map_digitChar_inj (xs : List Nat) :
    ∀ ys : List Nat, (∀ d ∈ xs, d < 10) → (∀ d ∈ ys, d < 10) →
      xs.map Nat.digitChar = ys.map Nat.digitChar → xs = ys := by
  induction xs with
  | nil => intro ys _ _ h; cases ys <;> simp_all
  | cons x xs ih =>
    intro ys hx hy h
    cases ys with
    | nil => simp at h
    | cons y ys =>
      simp only [List.map_cons, List.cons.injEq] at h
      have h1 := digitChar_inj x y (hx x (by simp)) (hy y (by simp)) h.1
      have h2 := ih ys (fun d hd => hx d (by simp [hd])) (fun d hd => hy d (by simp [hd])) h.2
      rw [h1, h2]

/-- Different numbers have different decimal representations. -/
theorem decimal_injective : Function.Injective decimal := by
  have hnz : ∀ n : Nat, n ≠ 0 →
      (Nat.digits 10 n).reverse.map Nat.digitChar ≠ [Char.ofNat 48] := by
    intro n hn h
    have h0 : (Nat.digits 10 n).reverse.map Nat.digitChar = [0].map Nat.digitChar := by
      rw [h]; rfl
    have hd := map_digitChar_inj _ [0]
      (fun d hd => Nat.digits_lt_base (by norm_num) (List.mem_reverse.1 hd))
      (by simp) h0
    have hrev : Nat.digits 10 n = [0] := by
      have := congrArg List.reverse hd
      simpa using this
    have hlast := Nat.getLast_digit_ne_zero 10 hn
    simp [hrev] at hlast
  intro a b h
  unfold decimal at h
  by_cases ha : a = 0
  · by_cases hb : b = 0
    · rw [ha, hb]
    · rw [if_pos ha, if_neg hb] at h
      have h2 := congrArg String.data h
      exact absurd h2.symm (hnz b hb)
  · by_cases hb : b = 0
    · rw [if_neg ha, if_pos hb] at h
      have h2 := congrArg String.data h
      exact absurd h2 (hnz a ha)
    · rw [if_neg ha, if_neg hb] at h
      have h2 : (Nat.digits 10 a).reverse.map Nat.digitChar
          = (Nat.digits 10 b).reverse.map Nat.digitChar := congrArg String.data h
      have h3 := map_digitChar_inj _ _
        (fun d hd => Nat.digits_lt_base (by norm_num) (List.mem_reverse.1 hd))
        (fun d hd => Nat.digits_lt_base (by norm_num) (List.mem_reverse.1 hd)) h2
      exact Nat.digits_inj_iff.1 (List.reverse_injective h3)

/-- A frame determines the count it carries. -/
theorem frameOf_injective : Function.Injective frameOf := by
  intro a b h
  apply decimal_injective
  have h2 := congrArg String.data h
  simp only [frameOf, String.data_append] at h2
  have h3 := List.append_cancel_right h2
  have h4 := List.append_cancel_left h3
  exact String.ext h4

/-! ## The `/live` handler: one pass of the loop -/

theorem liveIteration_begin_err (db : DB) (env : LiveEnv) (e : String)
    (hb : env.beginErr = some e) :
    liveIteration db env
      = { db := db, events := [.db .begin, .log ("Transaction error: " ++ e)],
          continues := false } := by
  simp [liveIteration, Begin, hb]

theorem liveIteration_query_err (db : DB) (env : LiveEnv) (e : String)
    (hb : env.beginErr = none) (hq : env.queryErr = some e) :
    liveIteration db env
      = { db := db,
          events := [.db .begin, .db (.queryRow countSQL), .db .commit,
                     .log ("Query error: " ++ e)],
          continues := false } := by
  cases hc : env.commitErr <;>
    simp [liveIteration, Begin, hb, hq, hc, Tx.QueryRowScan, Tx.Commit]

theorem liveIteration_ok (db : DB) (env : LiveEnv)
    (hb : env.beginErr = none) (hq : env.queryErr = none) :
    liveIteration db env
      = { db := db,
          events := [.db .begin, .db (.queryRow countSQL), .scan db.rows.length,
                     .db .commit, .write (frameOf db.rows.length) env.writeErr,
                     .flush, .sleep 2],
          continues := true } := by
  cases hc : env.commitErr <;>
    simp [liveIteration, Begin, hb, hq, hc, Tx.QueryRowScan, Tx.Commit, Sprintf_count]

/-! ## The `/live` handler: the trace of a connection -/

theorem frames_append (xs ys : List Event) : frames (xs ++ ys) = frames xs ++ frames ys := by
  induction xs with
  | nil => rfl
  | cons x xs ih => cases x <;> simp [frames, ih]

theorem countsRead_append (xs ys : List Event) :
    countsRead (xs ++ ys) = countsRead xs ++ countsRead ys := by
  induction xs with
  | nil => rfl
  | cons x xs ih => cases x <;> simp [countsRead, ih]

theorem dbCalls_append (xs ys : List Event) :
    dbCalls (xs ++ ys) = dbCalls xs ++ dbCalls ys := by
  induction xs with
  | nil => rfl
  | cons x xs ih => cases x <;> simp [dbCalls, ih]

theorem run_cons (s : Sys) (a : Action) (as : List Action) :
    run s (a :: as) = run (step s a) as := rfl

/-- Once the handler has returned, nothing is added to the trace of the connection. -/
theorem run_returned (as : List Action) :
    ∀ s : Sys, s.live = false → (run s as).live = false ∧ (run s as).trace = s.trace := by
  induction as with
  | nil => intro s h; exact ⟨h, rfl⟩
  | cons a as ih =>
    intro s h
    rw [run_cons]
    cases a with
    | track r env => exact ih _ h
    | tick env =>
      have hs : step s (.tick env) = s := by simp [step, h]
      rw [hs]
      exact ih s h

/-- The trace of a connection only grows. -/
theorem run_trace_grows (as : List Action) :
    ∀ s : Sys, ∃ t, (run s as).trace = s.trace ++ t := by
  induction as with
  | nil => intro s; exact ⟨[], by simp [run]⟩
  | cons a as ih =>
    intro s
    rw [run_cons]
    obtain ⟨t, ht⟩ := ih (step s a)
    cases a with
    | track r env => exact ⟨t, by rw [ht]; rfl⟩
    | tick env =>
      by_cases hl : s.live = true
      · refine ⟨(liveIteration s.db env).events ++ t, ?_⟩
        rw [ht]
        simp [step, hl]
      · refine ⟨t, ?_⟩
        rw [ht]
        simp [step, hl]

theorem frames_liveIteration (db : DB) (env : LiveEnv) :
    frames (liveIteration db env).events
      = (countsRead (liveIteration db env).events).map frameOf := by
  cases hb : env.beginErr with
  | some e => simp [liveIteration_begin_err db env e hb, frames, countsRead]
  | none =>
    cases hq : env.queryErr with
    | some e => simp [liveIteration_query_err db env e hb hq, frames, countsRead]
    | none => simp [liveIteration_ok db env hb hq, frames, countsRead]

theorem liveIteration_db (db : DB) (env : LiveEnv) : (liveIteration db env).db = db := by
  cases hb : env.beginErr with
  | some e => simp [liveIteration_begin_err db env e hb]
  | none =>
    cases hq : env.queryErr with
    | some e => simp [liveIteration_query_err db env e hb hq]
    | none => simp [liveIteration_ok db env hb hq]

/-- Every frame handed to the client is the frame of a count that was read, in
the same order, and every count read has its frame. -/
theorem frames_run (as : List Action) :
    ∀ s : Sys, frames s.trace = (countsRead s.trace).map frameOf →
      frames (run s as).trace = (countsRead (run s as).trace).map frameOf := by
  induction as with
  | nil => intro s h; exact h
  | cons a as ih =>
    intro s h
    rw [run_cons]
    apply ih
    cases a with
    | track r env => exact h
    | tick env =>
      by_cases hl : s.live = true
      · simp [step, hl, frames_append, countsRead_append, h, frames_liveIteration]
      · simpa [step, hl] using h

/-- A pass of the loop leaves the handler running exactly when it was running and
both `Begin` and the count query succeeded. -/
theorem step_tick_live (s : Sys) (env : LiveEnv) :
    (step s (.tick env)).live = true
      ↔ s.live = true ∧ env.beginErr = none ∧ env.queryErr = none := by
  by_cases hl : s.live = true
  · cases hb : env.beginErr with
    | some e => simp [step, hl, liveIteration_begin_err s.db env e hb]
    | none =>
      cases hq : env.queryErr with
      | some e => simp [step, hl, liveIteration_query_err s.db env e hb hq]
      | none => simp [step, hl, liveIteration_ok s.db env hb hq]
  · simp [step, hl]

/-- C5, counterexample: the first write fails with a broken pipe, and the loop
goes round again all the same: it reads the count once more and hands the
next frame to the client. -/
theorem live_failed_push_loop_goes_on :
    (run (Sys.connect freshStore) [.tick brokenPipe, .tick okLive]).live = true
    ∧ (run (Sys.connect freshStore) [.tick brokenPipe, .tick okLive]).trace
        = [.db .begin, .db (.queryRow countSQL), .scan 0, .db .commit,
           .write "data: 0\n\n" (some "write: broken pipe"), .flush, .sleep 2,
           .db .begin, .db (.queryRow countSQL), .scan 0, .db .commit,
           .write "data: 0\n\n" none, .flush, .sleep 2] := by
  simp [run, step, Sys.connect, liveIteration, Begin, okLive, brokenPipe, Tx.QueryRowScan,
    Tx.Commit, freshStore, Sprintf, doPrintf, fmtD, fmtInteger]

/-- C5, amended: the outcome of a push has no part in ending the loop.  A pass
of the loop leaves the handler running exactly when the handler was running
and both `Begin` and the count query succeeded; changing the outcome of the
write changes neither that, nor the table, nor the calls made on the database,
nor the frames handed to the client. -/
theorem live_loop_ends_on_store_error_only (s : Sys) (env : LiveEnv) (w : Option String) :
    ((step s (.tick env)).live = true
        ↔ s.live = true ∧ env.beginErr = none ∧ env.queryErr = none)
    ∧ (step s (.tick { env with writeErr := w })).live = (step s (.tick env)).live
    ∧ (step s (.tick { env with writeErr := w })).db = (step s (.tick env)).db
    ∧ dbCalls (step s (.tick { env with writeErr := w })).trace
        = dbCalls (step s (.tick env)).trace
    ∧ frames (step s (.tick { env with writeErr := w })).trace
        = frames (step s (.tick env)).trace := by
  have key : ∀ env2 : LiveEnv, env2.beginErr = env.beginErr → env2.queryErr = env.queryErr →
      (step s (.tick env2)).live = (step s (.tick env)).live
      ∧ (step s (.tick env2)).db = (step s (.tick env)).db
      ∧ dbCalls (step s (.tick env2)).trace = dbCalls (step s (.tick env)).trace
      ∧ frames (step s (.tick env2)).trace = frames (step s (.tick env)).trace := by
    intro env2 h1 h2
    by_cases hl : s.live = true
    · cases hb : env.beginErr with
      | some e =>
        rw [hb] at h1
        simp [step, hl, liveIteration_begin_err s.db env e hb,
          liveIteration_begin_err s.db env2 e h1]
      | none =>
        rw [hb] at h1
        cases hq : env.queryErr with
        | some e =>
          rw [hq] at h2
          simp [step, hl, liveIteration_query_err s.db env e hb hq,
            liveIteration_query_err s.db env2 e h1 h2]
        | none =>
          rw [hq] at h2
          simp [step, hl, liveIteration_ok s.db env hb hq,
            liveIteration_ok s.db env2 h1 h2, frames_append, dbCalls_append, frames, dbCalls]
    · simp [step, hl]
  exact ⟨step_tick_live s env, key { env with writeErr := w } rfl rfl⟩

/-- C6, counterexample: the commit of the read transaction fails, and the pass
still hands the frame to the client and the loop goes round again. -/
theorem live_failed_commit_still_pushes :
    liveIteration oneRow failLiveCommit
      = { db := oneRow,
          events := [.db .begin, .db (.queryRow countSQL), .scan 1, .db .commit,
                     .write "data: 1\n\n" none, .flush, .sleep 2],
          continues := true } := by
  simp [liveIteration, Begin, okLive, failLiveCommit, Tx.QueryRowScan, Tx.Commit, oneRow,
    Sprintf, doPrintf, fmtD, fmtInteger]

/-- C6, amended: in a pass of the loop in which `Begin` or the count query
fails, the handler returns in that pass: it makes one `Begin` and at most one
query (no retry), writes nothing to the client, leaves the table as it was,
and nothing is ever added to the trace of the connection afterwards.  A
failure of `Commit` alone is not such a failure: when `Begin` and the query
succeed, the frame of the count is handed to the client and the loop goes on,
whatever `Commit` returned. -/
theorem live_read_failure_ends_loop (s : Sys) (env : LiveEnv) (hl : s.live = true) :
    ((env.beginErr ≠ none ∨ env.queryErr ≠ none) →
      (step s (.tick env)).live = false
      ∧ (∀ f w, Event.write f w ∉ (liveIteration s.db env).events)
      ∧ frames (step s (.tick env)).trace = frames s.trace
      ∧ (dbCalls (liveIteration s.db env).events).count .begin = 1
      ∧ (dbCalls (liveIteration s.db env).events).count (.queryRow countSQL) ≤ 1
      ∧ (step s (.tick env)).db = s.db
      ∧ ∀ as, (run (step s (.tick env)) as).live = false
          ∧ (run (step s (.tick env)) as).trace = (step s (.tick env)).trace)
    ∧ (env.beginErr = none → env.queryErr = none →
      (step s (.tick env)).live = true
      ∧ frames (step s (.tick env)).trace = frames s.trace ++ [frameOf s.db.rows.length]) := by
  constructor
  · intro hf
    have hdead : (step s (.tick env)).live = false := by
      cases hb : env.beginErr with
      | some e => simp [step, hl, liveIteration_begin_err s.db env e hb]
      | none =>
        cases hq : env.queryErr with
        | some e => simp [step, hl, liveIteration_query_err s.db env e hb hq]
        | none => simp [hb, hq] at hf
    refine ⟨hdead, ?_, ?_, ?_, ?_, ?_, fun as => run_returned as _ hdead⟩
    all_goals
      cases hb : env.beginErr with
      | some e =>
        simp [step, hl, liveIteration_begin_err s.db env e hb, frames_append, frames, dbCalls]
      | none =>
        cases hq : env.queryErr with
        | some e =>
          simp [step, hl, liveIteration_query_err s.db env e hb hq, frames_append, frames,
            dbCalls]
        | none => simp [hb, hq] at hf
  · intro hb hq
    simp [step, hl, liveIteration_ok s.db env hb hq, frames_append, frames]

/-- Instances of C6 as amended: a failed `Begin` and a failed query end the loop
with no frame; a failed `Commit` does not. -/
theorem live_read_failure_ends_loop_witness :
    (step (Sys.connect oneRow) (.tick failLiveBegin)).live = false
    ∧ frames (step (Sys.connect oneRow) (.tick failLiveBegin)).trace = []
    ∧ (step (Sys.connect oneRow) (.tick failLiveQuery)).live = false
    ∧ frames (step (Sys.connect oneRow) (.tick failLiveQuery)).trace = []
    ∧ (step (Sys.connect oneRow) (.tick failLiveCommit)).live = true
    ∧ frames (step (Sys.connect oneRow) (.tick failLiveCommit)).trace = [frameOf 1] :=
  have h1 := (live_read_failure_ends_loop (Sys.connect oneRow) failLiveBegin rfl).1
    (Or.inl (by decide))
  have h2 := (live_read_failure_ends_loop (Sys.connect oneRow) failLiveQuery rfl).1
    (Or.inr (by decide))
  have h3 := (live_read_failure_ends_loop (Sys.connect oneRow) failLiveCommit rfl).2 rfl rfl
  ⟨h1.1, h1.2.2.1, h2.1, h2.2.2.1, h3.1, h3.2⟩

/-- C7: on a `/live` connection, whatever requests are served in between, the
frames handed to the client are, in order, the frames of the counts read, one
for each: the text `data: `, the decimal representation of the count, and two
newlines.  A pass of the loop whose read succeeds hands over exactly one
frame, that of the number of rows in the table, and any other pass hands over
none.  On a connection opened on a table with no rows, the first frame, if
there is one, is `data: 0` followed by two newlines. -/
theorem live_frames_are_counts (db : DB) (as : List Action) (env : LiveEnv) :
    frames (run (Sys.connect db) as).trace
      = (countsRead (run (Sys.connect db) as).trace).map
          (fun n => "data: " ++ decimal n ++ "\n\n")
    ∧ frames (liveIteration db env).events
        = (if env.beginErr = none ∧ env.queryErr = none
            then ["data: " ++ decimal db.rows.length ++ "\n\n"] else [])
    ∧ (frames (run (Sys.connect freshStore) (.tick env :: as)).trace = []
        ∨ (frames (run (Sys.connect freshStore) (.tick env :: as)).trace).head?
            = some "data: 0\n\n") := by
  refine ⟨frames_run as (Sys.connect db) rfl, ?_, ?_⟩
  · cases hb : env.beginErr with
    | some e => simp [liveIteration_begin_err db env e hb, frames]
    | none =>
      cases hq : env.queryErr with
      | some e => simp [liveIteration_query_err db env e hb hq, frames]
      | none => simp [liveIteration_ok db env hb hq, frames, frameOf]
  · rw [run_cons]
    by_cases hok : env.beginErr = none ∧ env.queryErr = none
    · right
      obtain ⟨t, ht⟩ := run_trace_grows as (step (Sys.connect freshStore) (.tick env))
      have h := liveIteration_ok freshStore env hok.1 hok.2
      have hst : (step (Sys.connect freshStore) (.tick env)).trace
          = (liveIteration freshStore env).events := by
        simp [step, Sys.connect]
      rw [ht, hst, h]
      simp [frames, frameOf, decimal, freshStore]
    · left
      have hdead : (step (Sys.connect freshStore) (.tick env)).live = false := by
        have h := step_tick_live (Sys.connect freshStore) env
        cases hv : (step (Sys.connect freshStore) (.tick env)).live with
        | false => rfl
        | true => exact absurd (h.1 hv).2 hok
      rw [(run_returned as _ hdead).2]
      have hst : (step (Sys.connect freshStore) (.tick env)).trace
          = (liveIteration freshStore env).events := by
        simp [step, Sys.connect]
      rw [hst]
      cases hb : env.beginErr with
      | some e => simp [liveIteration_begin_err freshStore env e hb, frames]
      | none =>
        cases hq : env.queryErr with
        | some e => simp [liveIteration_query_err freshStore env e hb hq, frames]
        | none => exact absurd ⟨hb, hq⟩ hok

/-- Instances of C7: the sample connection, and one pass on a table of one row. -/
theorem live_frames_are_counts_witness :
    frames (run (Sys.connect freshStore) sampleSchedule).trace
      = (countsRead (run (Sys.connect freshStore) sampleSchedule).trace).map
          (fun n => "data: " ++ decimal n ++ "\n\n")
    ∧ frames (liveIteration oneRow okLive).events
        = ["data: " ++ decimal oneRow.rows.length ++ "\n\n"] :=
  ⟨(live_frames_are_counts freshStore sampleSchedule okLive).1,
   (live_frames_are_counts oneRow sampleSchedule okLive).2.1⟩

/-! ## The table over time -/

/-- A `/track` request either leaves the table as it was or adds one row at its
end, with a new id and the non-empty page of the request. -/
theorem trackHandler_db (db : DB) (r : Request) (env : TrackEnv) :
    (trackHandler db r env).db = db
    ∨ ∃ i, r.Query.Get "page" ≠ "" ∧ newRowid db.rows env.cand = some i
        ∧ (trackHandler db r env).db.rows
            = db.rows ++ [{ id := i, page := r.Query.Get "page", timestamp := env.now }] := by
  by_cases hm : r.Method = "POST"
  · by_cases hp : r.Query.Get "page" = ""
    · left; simp [trackHandler, hm, hp]
    · cases hb : env.beginErr with
      | some e => left; simp [trackHandler, hm, hp, hb, Begin]
      | none =>
        cases hx : env.execErr with
        | some e => left; simp [trackHandler, hm, hp, hb, hx, Begin, Tx.Exec, Tx.Rollback]
        | none =>
          cases hi : newRowid db.rows env.cand with
          | none =>
            left; simp [trackHandler, hm, hp, hb, hx, hi, Begin, Tx.Exec, Tx.Rollback]
          | some i =>
            cases hc : env.commitErr with
            | some e =>
              left
              simp [trackHandler, hm, hp, hb, hx, hi, hc, Begin, Tx.Exec, Tx.Commit,
                Tx.Rollback]
            | none =>
              right
              refine ⟨i, hp, rfl, ?_⟩
              simp [trackHandler, hm, hp, hb, hx, hi, hc, Begin, Tx.Exec, Tx.Commit,
                Tx.Rollback]
  · left; simp [trackHandler, hm]

theorem trackHandler_length_le (db : DB) (r : Request) (env : TrackEnv) :
    db.rows.length ≤ (trackHandler db r env).db.rows.length := by
  rcases trackHandler_db db r env with h | ⟨i, _, _, h⟩
  · rw [h]
  · rw [h]; simp

theorem step_length_le (s : Sys) (a : Action) :
    s.db.rows.length ≤ (step s a).db.rows.length := by
  cases a with
  | track r env => exact trackHandler_length_le s.db r env
  | tick env =>
    by_cases hl : s.live = true
    · simp [step, hl, liveIteration_db]
    · simp [step, hl]

theorem run_length_le (as : List Action) :
    ∀ s : Sys, s.db.rows.length ≤ (run s as).db.rows.length := by
  induction as with
  | nil => intro s; exact Nat.le_refl _
  | cons a as ih =>
    intro s
    rw [run_cons]
    exact Nat.le_trans (step_length_le s a) (ih _)

theorem countsRead_liveIteration (db : DB) (env : LiveEnv) :
    countsRead (liveIteration db env).events = []
    ∨ countsRead (liveIteration db env).events = [db.rows.length] := by
  cases hb : env.beginErr with
  | some e => left; simp [liveIteration_begin_err db env e hb, countsRead]
  | none =>
    cases hq : env.queryErr with
    | some e => left; simp [liveIteration_query_err db env e hb hq, countsRead]
    | none => right; simp [liveIteration_ok db env hb hq, countsRead]

/-- The counts read so far are in non-decreasing order and none exceeds the
present number of rows; every step keeps it so. -/
theorem counts_sorted_run (as : List Action) :
    ∀ s : Sys,
      (List.Pairwise (· ≤ ·) (countsRead s.trace)
        ∧ ∀ n ∈ countsRead s.trace, n ≤ s.db.rows.length) →
      (List.Pairwise (· ≤ ·) (countsRead (run s as).trace)
        ∧ ∀ n ∈ countsRead (run s as).trace, n ≤ (run s as).db.rows.length) := by
  induction as with
  | nil => intro s h; exact h
  | cons a as ih =>
    intro s h
    rw [run_cons]
    apply ih
    cases a with
    | track r env =>
      exact ⟨h.1, fun n hn => Nat.le_trans (h.2 n hn) (trackHandler_length_le s.db r env)⟩
    | tick env =>
      by_cases hl : s.live = true
      · have hst : step s (.tick env)
            = { db := (liveIteration s.db env).db, live := (liveIteration s.db env).continues,
                trace := s.trace ++ (liveIteration s.db env).events } := by
          simp [step, hl]
        rw [hst]
        simp only [countsRead_append, liveIteration_db]
        rcases countsRead_liveIteration s.db env with hc | hc
        · rw [hc]; simpa using h
        · rw [hc]
          refine ⟨?_, ?_⟩
          · rw [List.pairwise_append]
            refine ⟨h.1, List.pairwise_singleton _ _, ?_⟩
            intro a ha b hb
            simp at hb
            rw [hb]
            exact h.2 a ha
          · intro n hn
            simp at hn
            rcases hn with hn | hn
            · exact h.2 n hn
            · rw [hn]
      · have hst : step s (.tick env) = s := by simp [step, hl]
        rw [hst]
        exact h

/-- C8: whatever `/track` requests are served between the passes of the loop of
a `/live` connection, no step makes the number of stored rows smaller, and the
frames handed to the client on that connection are the frames of the counts
read, each frame standing for one count only, and these counts form a
non-decreasing sequence. -/
theorem live_counts_never_decrease (db : DB) (as : List Action) (s : Sys) (a : Action)
    (r : Request) (env : TrackEnv) :
    db.rows.length ≤ (trackHandler db r env).db.rows.length
    ∧ s.db.rows.length ≤ (step s a).db.rows.length
    ∧ s.db.rows.length ≤ (run s as).db.rows.length
    ∧ frames (run (Sys.connect db) as).trace
        = (countsRead (run (Sys.connect db) as).trace).map frameOf
    ∧ Function.Injective frameOf
    ∧ List.Pairwise (· ≤ ·) (countsRead (run (Sys.connect db) as).trace) := by
  refine ⟨trackHandler_length_le db r env, step_length_le s a, run_length_le as s,
    frames_run as (Sys.connect db) rfl, frameOf_injective, ?_⟩
  exact (counts_sorted_run as (Sys.connect db)
    ⟨by simp [Sys.connect, countsRead], by simp [Sys.connect, countsRead]⟩).1

/-- An instance of C8: on the sample connection the counts read are 0, 1, 2. -/
theorem live_counts_never_decrease_witness :
    countsRead (run (Sys.connect freshStore) sampleSchedule).trace = [0, 1, 2]
    ∧ List.Pairwise (· ≤ ·) (countsRead (run (Sys.connect freshStore) sampleSchedule).trace) :=
  ⟨by decide,
   (live_counts_never_decrease freshStore sampleSchedule (Sys.connect freshStore)
      (.tick okLive) (postPage "/a") okTrack).2.2.2.2.2⟩

theorem largestRowid_append (rows : List Row) (r : Row) :
    largestRowid (rows ++ [r]) = max (largestRowid rows) r.id := by
  simp [largestRowid, List.foldl_append]

/-- When the ids in use are `1, 2, ..., n`, the largest one is `n`. -/
theorem largestRowid_range (rows : List Row) :
    rows.map Row.id = List.range' 1 rows.length → largestRowid rows = rows.length := by
  induction rows using List.reverseRecOn with
  | nil => intro _; rfl
  | append_singleton l a ih =>
    intro h
    rw [List.map_append, List.length_append, List.length_singleton,
      List.range'_1_concat] at h
    have h2 := List.append_inj h (by simp)
    have ha : a.id = 1 + l.length := by simpa using h2.2
    rw [largestRowid_append, ih h2.1, ha]
    simp
    omega

/-- When the ids in use are `1, 2, ..., n`, the only id a new row can get is `n + 1`. -/
theorem newRowid_range (rows : List Row) (cand : Option Nat) (i : Nat)
    (h : rows.map Row.id = List.range' 1 rows.length)
    (hi : newRowid rows cand = some i) : i = rows.length + 1 := by
  unfold newRowid at hi
  rw [largestRowid_range rows h] at hi
  split at hi
  · simpa using hi.symm
  · rename_i hfull
    cases cand with
    | none => simp at hi
    | some c =>
      simp only at hi
      split at hi
      · rename_i hc
        exfalso
        apply hc.2.2
        rw [h, List.mem_range'_1]
        omega
      · simp at hi

/-- A `/track` request keeps: every page is non-empty and the ids are `1, 2, ..., n`
in insertion order. -/
theorem trackHandler_keeps (db : DB) (r : Request) (env : TrackEnv)
    (hp : ∀ x ∈ db.rows, x.page ≠ "")
    (hid : db.rows.map Row.id = List.range' 1 db.rows.length) :
    (∀ x ∈ (trackHandler db r env).db.rows, x.page ≠ "")
    ∧ (trackHandler db r env).db.rows.map Row.id
        = List.range' 1 (trackHandler db r env).db.rows.length := by
  rcases trackHandler_db db r env with h | ⟨i, hne, hi, h⟩
  · rw [h]; exact ⟨hp, hid⟩
  · rw [h]
    have hi2 := newRowid_range db.rows env.cand i hid hi
    constructor
    · intro x hx
      simp at hx
      rcases hx with hx | hx
      · exact hp x hx
      · rw [hx]; exact hne
    · rw [List.map_append, List.length_append, List.length_singleton, List.range'_1_concat,
        hid, hi2]
      simp
      omega

theorem serve_keeps (reqs : List (Request × TrackEnv)) :
    ∀ db : DB, (∀ x ∈ db.rows, x.page ≠ "") →
      db.rows.map Row.id = List.range' 1 db.rows.length →
      (∀ x ∈ (serve db reqs).rows, x.page ≠ "")
      ∧ (serve db reqs).rows.map Row.id = List.range' 1 (serve db reqs).rows.length := by
  induction reqs with
  | nil => intro db hp hid; exact ⟨hp, hid⟩
  | cons q reqs ih =>
    intro db hp hid
    have hk := trackHandler_keeps db q.1 q.2 hp hid
    exact ih _ hk.1 hk.2

/-- C9: after any sequence of `/track` requests served on a freshly created
table, whatever their methods, pages and store outcomes, no stored row has an
empty page, and the ids of the rows, in insertion order, are `1, 2, ..., n`:
strictly increasing and pairwise distinct. -/
theorem stored_rows_wellformed (reqs : List (Request × TrackEnv)) :
    (∀ x ∈ (serve freshStore reqs).rows, x.page ≠ "")
    ∧ (serve freshStore reqs).rows.map Row.id
        = List.range' 1 (serve freshStore reqs).rows.length
    ∧ List.Pairwise (· < ·) ((serve freshStore reqs).rows.map Row.id)
    ∧ ((serve freshStore reqs).rows.map Row.id).Nodup := by
  have h := serve_keeps reqs freshStore (by simp [freshStore]) (by simp [freshStore])
  refine ⟨h.1, h.2, ?_, ?_⟩
  · rw [h.2]; exact List.pairwise_lt_range' 1 _
  · rw [h.2]; exact List.nodup_range' 1 _

/-- An instance of C9: of the sample requests two insert, with ids 1 and 2. -/
theorem stored_rows_wellformed_witness :
    (serve freshStore sampleRequests).rows.map Row.page = ["/a", "/e"]
    ∧ (serve freshStore sampleRequests).rows.map Row.id = [1, 2]
    ∧ List.Pairwise (· < ·) ((serve freshStore sampleRequests).rows.map Row.id) :=
  ⟨by decide, by decide, (stored_rows_wellformed sampleRequests).2.2.1⟩

end LiveCounter
